import Mathlib

/-!
Verification development for the consensus core of the kaspad BlockDAG node.

Each section embeds one subsystem of the source tree as executable Lean
definitions (machine integers become `Nat` with explicit `% 2^64` where wraparound
matters, fallible code returns `Except`/`Option`, loops become fuel-indexed
recursions), and the theorems at the end settle the specification claims
against those definitions.
-/

/-! ## Script parsing and signature-operation counting
    (src/domain/consensus/utils/txscript/script.go) -/

/-- Error kinds surfaced by the script code under scrutiny
    (scriptError calls in script.go and the wrapper errors of CalcSignatureHash). -/
inductive ScriptErr where
  | malformedPush
  | invalidSigHashSingleIndex
  | unknownScriptVersion
  | cannotParseOutputScript
  deriving DecidableEq

/-- Modelled from the spec: the opcode table (`opcodeArray` in opcode.go) is not under
src/.  Spec section 4.5: a script is a byte sequence of opcodes, each with a fixed or
length-prefixed payload.  The table encoded here is the standard one that script.go
indexes: Op0 = 0 is a bare byte, OpData1..OpData75 = 1..75 carry that many payload
bytes (table length = payload + opcode byte), OpPushData1/2/4 = 76/77/78 carry a
little-endian length prefix of 1/2/4 bytes (table length negative), and every other
opcode is a single bare byte. -/
def opcodeLength (v : Nat) : Int :=
  if v = 0 then 1
  else if v ≤ 75 then Int.ofNat (v + 1)
  else if v = 76 then -1
  else if v = 77 then -2
  else if v = 78 then -4
  else 1

/-- An opcode together with the data parsed out of the instruction stream
    (parsedOpcode in script.go; the opcode itself is represented by its byte value). -/
structure ParsedOpcode where
  value : Nat
  data : List Nat
  deriving DecidableEq

/-- Little-endian interpretation of a byte list (the PushData length prefixes). -/
def readLE : List Nat → Nat
  | [] => 0
  | b :: rest => b + 256 * readLE rest

/-- Translation of parseScriptTemplate (script.go:90): parses a byte script into
opcodes, returning the opcodes parsed up to the point of failure together with the
error, exactly as the source does.  Fuelled: every loop iteration consumes at least
the opcode byte, so fuel equal to the script length (as parseScript passes) always
suffices and the fuel-exhausted case is never reached from parseScript. -/
def parseScriptAux : Nat → List Nat → List ParsedOpcode × Option ScriptErr
  | _, [] => ([], none)
  | 0, _ :: _ => ([], some ScriptErr.malformedPush)
  | fuel + 1, instr :: rest =>
    let L := opcodeLength instr
    if L = 1 then
      let r := parseScriptAux fuel rest
      (⟨instr, []⟩ :: r.1, r.2)
    else if 1 < L then
      if (Int.ofNat (1 + rest.length)) < L then ([], some ScriptErr.malformedPush)
      else
        let n := (L - 1).toNat
        let r := parseScriptAux fuel (rest.drop n)
        (⟨instr, rest.take n⟩ :: r.1, r.2)
    else
      let pre := (-L).toNat
      if rest.length < pre then ([], some ScriptErr.malformedPush)
      else
        let l := readLE (rest.take pre)
        let body := rest.drop pre
        if body.length < l then ([], some ScriptErr.malformedPush)
        else
          let r := parseScriptAux fuel (body.drop l)
          (⟨instr, body.take l⟩ :: r.1, r.2)

/-- Translation of parseScript (script.go:176). -/
def parseScript (script : List Nat) : List ParsedOpcode × Option ScriptErr :=
  parseScriptAux script.length script

/-- Translation of isSmallInt (script.go:43): OP_0, or OP_1 (81) through OP_16 (96). -/
def isSmallInt (v : Nat) : Bool :=
  v = 0 || (81 ≤ v && v ≤ 96)

/-- Translation of isScriptHash (script.go:52): exactly
    [OP_HASH160 (169), OP_DATA_20 (20), OP_EQUAL (135)]. -/
def isScriptHash (pops : List ParsedOpcode) : Bool :=
  match pops with
  | [a, b, c] => a.value == 169 && b.value == 20 && c.value == 135
  | _ => false

/-- Translation of isPushOnly (script.go:70): every opcode is at most OP_16 (96). -/
def isPushOnly (pops : List ParsedOpcode) : Bool :=
  pops.all (fun p => p.value ≤ 96)

/-- Translation of asSmallInt (script.go:370): OP_0 is 0, OP_N is N (value - 80). -/
def asSmallInt (v : Nat) : Nat :=
  if v = 0 then 0 else v - 80

/-- Loop body of getSigOpCount (script.go:382), with the previous opcode value
threaded explicitly (`none` encodes the loop position i = 0, where the source's
`i > 0` guard fails). -/
def getSigOpCountAux (precise : Bool) : Option Nat → List ParsedOpcode → Nat
  | _, [] => 0
  | prev, pop :: rest =>
    let contrib : Nat :=
      if pop.value = 172 ∨ pop.value = 173 then 1
      else if pop.value = 174 ∨ pop.value = 175 then
        match prev with
        | some pv => if precise = true ∧ 81 ≤ pv ∧ pv ≤ 96 then asSmallInt pv else 20
        | none => 20
      else 0
    contrib + getSigOpCountAux precise (some pop.value) rest

/-- Translation of getSigOpCount (script.go:382): counts OP_CHECKSIG (172) and
OP_CHECKSIG_VERIFY (173) as 1 and OP_CHECKMULTISIG (174) / OP_CHECKMULTISIG_VERIFY
(175) as the preceding OP_1..OP_16 value in precise mode, else as the maximum 20. -/
def getSigOpCount (pops : List ParsedOpcode) (precise : Bool) : Nat :=
  getSigOpCountAux precise none pops

/-- Translation of GetSigOpCount (script.go:416): counts over the parsed-up-to-error
opcodes, in non-precise mode. -/
def GetSigOpCount (script : List Nat) : Nat :=
  getSigOpCount (parseScript script).1 false

/-- Script public key as the spec's data model gives it (section 3): a version and a
byte script (externalapi.ScriptPublicKey; the declaration itself is not under src/). -/
structure ScriptPublicKey where
  version : Nat
  script : List Nat
  deriving DecidableEq

/-- Translation of IsPayToScriptHash (script.go:61). -/
def IsPayToScriptHash (script : ScriptPublicKey) : Bool :=
  match parseScript script.script with
  | (_, some _) => false
  | (pops, none) => isScriptHash pops

/-- Translation of GetPreciseSigOpCount (script.go:428): non-P2SH scripts are counted
precisely from the public key script; for P2SH pairs the redeem script (data of the
last push of the signature script) is re-parsed and counted precisely over the
parsed-up-to-error opcodes; an unparsable / non-push-only / empty signature script or
an empty redeem script counts 0. -/
def GetPreciseSigOpCount (scriptSig : List Nat) (scriptPubKey : ScriptPublicKey) (isP2SH : Bool) : Nat :=
  let pops := (parseScript scriptPubKey.script).1
  if !(isP2SH && isScriptHash pops) then getSigOpCount pops true
  else
    match parseScript scriptSig with
    | (_, some _) => 0
    | (sigPops, none) =>
      if !isPushOnly sigPops || sigPops.length = 0 then 0
      else
        let shScript := ((sigPops.getLast?).getD ⟨0, []⟩).data
        if shScript.length = 0 then 0
        else getSigOpCount (parseScript shScript).1 true

/-! ## Signature hash computation (script.go:249..366)

The transaction record follows the spec's data model (section 3); the declarations of
externalapi.DomainTransaction and its parts are not under src/.  Fields nest by value
as the spec writes them, so the record copies made by shallowCopyTx share no mutable
state with the caller's transaction. -/

/-- Modelled from the spec: outpoint (txID, index), section 3. -/
structure DomainOutpoint where
  transactionId : Nat
  index : Nat
  deriving DecidableEq

/-- Modelled from the spec: transaction input {prevOutpoint, signatureScript, sequence}. -/
structure TransactionInput where
  previousOutpoint : DomainOutpoint
  signatureScript : List Nat
  sequence : Nat
  deriving DecidableEq

/-- Modelled from the spec: transaction output {value, scriptPublicKey}. -/
structure TransactionOutput where
  value : Nat
  scriptPublicKey : ScriptPublicKey
  deriving DecidableEq

/-- Modelled from the spec: transaction
{version, inputs, outputs, lockTime, subnetworkID, gas, payload} with a payload hash,
section 3 and the wire format of section 6. -/
structure DomainTransaction where
  version : Nat
  inputs : List TransactionInput
  outputs : List TransactionOutput
  lockTime : Nat
  subnetworkId : List Nat
  gas : Nat
  payloadHash : Nat
  payload : List Nat
  deriving DecidableEq

/-- Hash type constants (script.go:22..31). -/
def SigHashOld : Nat := 0

/-- SigHashAll constant (script.go). -/
def SigHashAll : Nat := 1

/-- SigHashNone constant (script.go). -/
def SigHashNone : Nat := 2

/-- SigHashSingle constant (script.go). -/
def SigHashSingle : Nat := 3

/-- SigHashAnyOneCanPay constant (script.go). -/
def SigHashAnyOneCanPay : Nat := 128

/-- sigHashMask constant (script.go:31). -/
def sigHashMask : Nat := 31

/-- MaxScriptPublicKeyVersion: script.go checks `script.Version > constants.MaxScriptPublicKeyVersion`;
the constant itself is not under src/.  Modelled from the spec: DisasmString's comment
in script.go says only one version exists, so the maximum is the initial version 0. -/
def MaxScriptPublicKeyVersion : Nat := 0

/-- Modelled from the spec: consensushashing.TransactionHashForSigning is not under
src/.  Section 4.5 step 5 hashes serialize(modifiedTx) || LE32(T); the hash is
represented by the pair being hashed, which is faithful for every claim that does not
depend on hash collisions. -/
structure SigHash where
  hashedTx : DomainTransaction
  hashedType : Nat
  deriving DecidableEq

/-- Modelled from the spec: the serialization done by parsedOpcode.bytes (opcode.go,
not under src/), used by unparseScript.  Spec section 4.5 step 2 appends the previous
script public key bytes; data pushes re-serialize as opcode byte, length prefix where
the opcode carries one, then the data. -/
def popBytes (p : ParsedOpcode) : List Nat :=
  if p.value = 76 then 76 :: p.data.length % 256 :: p.data
  else if p.value = 77 then 77 :: p.data.length % 256 :: (p.data.length / 256) % 256 :: p.data
  else if p.value = 78 then
    78 :: p.data.length % 256 :: (p.data.length / 256) % 256 ::
      (p.data.length / 65536) % 256 :: (p.data.length / 16777216) % 256 :: p.data
  else if 1 ≤ p.value ∧ p.value ≤ 75 then p.value :: p.data
  else [p.value]

/-- Translation of unparseScript (script.go:182). -/
def unparseScript (pops : List ParsedOpcode) : List Nat :=
  (pops.map popBytes).flatten

/-- Translation of shallowCopyTx (script.go:249): a fresh transaction record with
fresh input and output records copied field by field. -/
def shallowCopyTx (tx : DomainTransaction) : DomainTransaction :=
  { version := tx.version
    inputs := tx.inputs.map (fun i =>
      { previousOutpoint := i.previousOutpoint
        signatureScript := i.signatureScript
        sequence := i.sequence })
    outputs := tx.outputs.map (fun o =>
      { value := o.value
        scriptPublicKey := o.scriptPublicKey })
    lockTime := tx.lockTime
    subnetworkId := tx.subnetworkId
    gas := tx.gas
    payloadHash := tx.payloadHash
    payload := tx.payload }

/-- Two little-endian bytes of the script version (script.go:314). -/
def versionBytes (v : Nat) : List Nat :=
  [v % 256, (v / 256) % 256]

/-- Translation of calcSignatureHash (script.go:294), additionally returning the
caller's transaction as observable after the call (the second component), so that the
frame behaviour of the function is part of the embedding.  Every statement of the
source mutates the shallow copy; under the spec's by-value data model none of them
reaches the caller's record. -/
def calcSignatureHashTracked (prevScriptPublicKey : List ParsedOpcode) (scriptVersion : Nat)
    (hashType : Nat) (tx : DomainTransaction) (idx : Nat) :
    Except ScriptErr SigHash × DomainTransaction :=
  if hashType &&& sigHashMask = SigHashSingle ∧ tx.outputs.length ≤ idx then
    (Except.error ScriptErr.invalidSigHashSingleIndex, tx)
  else
    let txCopyA := shallowCopyTx tx
    let txCopyB := { txCopyA with payload := [] }
    let sigScript := versionBytes scriptVersion ++ unparseScript prevScriptPublicKey
    let txCopyC := { txCopyB with inputs := txCopyB.inputs.mapIdx (fun i inp =>
      if i = idx then { inp with signatureScript := sigScript }
      else { inp with signatureScript := [] }) }
    let masked := hashType &&& sigHashMask
    let txCopyD :=
      if masked = SigHashNone then
        { txCopyC with
          outputs := []
          inputs := txCopyC.inputs.mapIdx (fun i inp =>
            if i = idx then inp else { inp with sequence := 0 }) }
      else if masked = SigHashSingle then
        { txCopyC with
          outputs := (txCopyC.outputs.take (idx + 1)).mapIdx (fun i o =>
            if i < idx then { value := 0, scriptPublicKey := { version := 0, script := [] } } else o)
          inputs := txCopyC.inputs.mapIdx (fun i inp =>
            if i = idx then inp else { inp with sequence := 0 }) }
      else txCopyC
    let txCopyE :=
      if hashType &&& SigHashAnyOneCanPay ≠ 0 then
        { txCopyD with inputs := (txCopyD.inputs.drop idx).take 1 }
      else txCopyD
    (Except.ok { hashedTx := txCopyE, hashedType := hashType }, tx)

/-- Result component of calcSignatureHash (script.go:294). -/
def calcSignatureHash (prevScriptPublicKey : List ParsedOpcode) (scriptVersion : Nat)
    (hashType : Nat) (tx : DomainTransaction) (idx : Nat) : Except ScriptErr SigHash :=
  (calcSignatureHashTracked prevScriptPublicKey scriptVersion hashType tx idx).1

/-- Translation of CalcSignatureHash (script.go:280), with the caller's transaction
after the call tracked as in calcSignatureHashTracked. -/
def CalcSignatureHashTracked (script : ScriptPublicKey) (hashType : Nat)
    (tx : DomainTransaction) (idx : Nat) : Except ScriptErr SigHash × DomainTransaction :=
  if MaxScriptPublicKeyVersion < script.version then
    (Except.error ScriptErr.unknownScriptVersion, tx)
  else
    match parseScript script.script with
    | (_, some _) => (Except.error ScriptErr.cannotParseOutputScript, tx)
    | (parsedScript, none) =>
      calcSignatureHashTracked parsedScript script.version hashType tx idx

/-- Result component of CalcSignatureHash (script.go:280). -/
def CalcSignatureHash (script : ScriptPublicKey) (hashType : Nat)
    (tx : DomainTransaction) (idx : Nat) : Except ScriptErr SigHash :=
  (CalcSignatureHashTracked script hashType tx idx).1

/-! ## UTXO iterator with diff
    (src/domain/consensus/utils/utxo/utxo_iterator_with_diff.go) -/

/-- Modelled from the spec: UTXO entry {amount, scriptPubKey, blockBlueScore,
isCoinbase} (section 3); externalapi.UTXOEntry is not under src/. -/
structure UTXOEntry where
  amount : Nat
  scriptPubKey : ScriptPublicKey
  blockBlueScore : Nat
  isCoinbase : Bool
  deriving DecidableEq

/-- An (outpoint, entry) pair as yielded by UTXO-set iterators. -/
abbrev UTXOPair := DomainOutpoint × UTXOEntry

/-- Association lookup in a UTXO collection. -/
def utxoGet (c : List UTXOPair) (o : DomainOutpoint) : Option UTXOEntry :=
  (c.find? (fun p => p.1 == o)).map Prod.snd

/-- Modelled from the spec: utxoCollection.containsWithBlueScore (the utxo collection
code is not under src/).  Next (utxo_iterator_with_diff.go:46) calls it with an
outpoint and that entry's blockBlueScore; per the spec's data model (section 3:
toAdd/toRemove are sets of (outpoint, entry) pairs) it holds when the collection
carries the outpoint with an entry of exactly that blue score. -/
def containsWithBlueScore (c : List UTXOPair) (o : DomainOutpoint) (blueScore : Nat) : Bool :=
  match utxoGet c o with
  | some e => e.blockBlueScore == blueScore
  | none => false

/-- The diff (utxoDiff in the utxo package): collections to add and to remove. -/
structure UTXODiff where
  toAdd : List UTXOPair
  toRemove : List UTXOPair
  deriving DecidableEq

/-- Translation of one Next/Get round of readOnlyUTXOIteratorWithDiff
(utxo_iterator_with_diff.go:43): loop over the rest of the base iterator skipping
pairs whose outpoint is in toRemove with the entry's blue score, then pull from the
rest of the toAdd iterator; none means Next returned false. -/
def iterNextAux (d : UTXODiff) : List UTXOPair → List UTXOPair →
    Option (UTXOPair × (List UTXOPair × List UTXOPair))
  | [], [] => none
  | [], a :: addRest => some (a, ([], addRest))
  | b :: baseRest, addRest =>
    if containsWithBlueScore d.toRemove b.1 b.2.blockBlueScore then iterNextAux d baseRest addRest
    else some (b, (baseRest, addRest))

/-- Exhausts the iterator through repeated Next/Get rounds (fuelled; one unit of fuel
per yielded pair suffices). -/
def iterCollect (d : UTXODiff) : Nat → List UTXOPair → List UTXOPair → List UTXOPair
  | 0, _, _ => []
  | fuel + 1, baseRest, addRest =>
    match iterNextAux d baseRest addRest with
    | none => []
    | some (p, s2) => p :: iterCollect d fuel s2.1 s2.2

/-- Translation of IteratorWithDiff (utxo_iterator_with_diff.go:21) applied to a plain
base iterator, given by the sequence of pairs it yields, followed by exhausting the
produced iterator: the full yielded sequence. -/
def iteratorWithDiffAll (base : List UTXOPair) (d : UTXODiff) : List UTXOPair :=
  iterCollect d (base.length + d.toAdd.length + 1) base d.toAdd

/-! ## Block locator (src/consensus/blocklocator/blocklocator.go) -/

/-- Block node data used by the block locator (the blocknode package is not under
src/): hash, blue score (uint64 in the source) and selected parent.  Spec section 3. -/
structure BlockNode where
  nodeHash : Nat
  blueScore : Nat
  selectedParent : Option Nat
  deriving DecidableEq

/-- The uint64 modulus: blueScore and the locator step are uint64 in the source. -/
def U64 : Nat := 2 ^ 64

/-- Wrapping uint64 subtraction (the untyped `node.BlueScore() - step` at
blocklocator.go:78 compiles only at uint64 and wraps on underflow). -/
def u64sub (a b : Nat) : Nat := (a + (U64 - b % U64)) % U64

/-- Modelled from the spec: BlockNode.SelectedAncestor (blocknode, not under src/),
section 4.3: walk the selected-parent chain from the node until one with
blueScore ≤ target is reached and return it; none (Go nil) when the chain ends
first.  Fuelled by chain length. -/
def selectedAncestor (store : Nat → Option BlockNode) : Nat → BlockNode → Nat → Option BlockNode
  | 0, _, _ => none
  | fuel + 1, node, target =>
    if node.blueScore ≤ target then some node
    else
      match node.selectedParent with
      | none => none
      | some p =>
        match store p with
        | none => none
        | some parentNode => selectedAncestor store fuel parentNode target

/-- Translation of the loop of blockLocator (blocklocator.go:64..88), fuelled: none
when the fuel runs out before the loop exits, some (ok locator) on normal return and
some (error) for the lines 69..72 not-in-same-selected-parent-chain error. -/
def blockLocatorLoop (store : Nat → Option BlockNode) (low : BlockNode) :
    Nat → BlockNode → Nat → List Nat → Option (Except Unit (List Nat))
  | 0, _, _, _ => none
  | fuel + 1, node, step, acc =>
    let acc2 := acc ++ [node.nodeHash]
    if node.blueScore ≤ low.blueScore then
      if node.nodeHash = low.nodeHash then some (Except.ok acc2) else some (Except.error ())
    else
      let nextRaw := u64sub node.blueScore step
      let nextBlueScore := if nextRaw < low.blueScore then low.blueScore else nextRaw
      match selectedAncestor store 64 node nextBlueScore with
      | none => some (Except.ok acc2)
      | some node2 => blockLocatorLoop store low fuel node2 ((step * 2) % U64) acc2

/-- Translation of blockLocator (blocklocator.go:56): replace the high node by its
selected parent so the locator does not contain the high node, then run the loop with
step 1; a missing selected parent is Go's nil node, for which the loop never runs. -/
def blockLocator (store : Nat → Option BlockNode) (highNode lowNode : BlockNode)
    (fuel : Nat) : Option (Except Unit (List Nat)) :=
  match highNode.selectedParent with
  | none => some (Except.ok [])
  | some p =>
    match store p with
    | none => some (Except.ok [])
    | some startNode => blockLocatorLoop store lowNode fuel startNode 1 []

/-- The selected-parent chain of blocks 0..20 of claim C4: block i has blue score i
and selected parent i - 1, with genesis at 0. -/
def chainStore (h : Nat) : Option BlockNode :=
  if h ≤ 20 then some ⟨h, h, if h = 0 then none else some (h - 1)⟩ else none

/-- Translation of the scan of FindNextLocatorBoundaries (blocklocator.go:97),
remembering the previously visited locator entry: at the first locally-known entry
the result is (previous entry, that entry); when no entry is known the result is
(last entry scanned, genesis). -/
def findNextBoundariesAux (known : Nat → Bool) (genesisHash : Nat) (prev : Option Nat) :
    List Nat → Option Nat × Nat
  | [] => (prev, genesisHash)
  | h :: rest =>
    if known h then (prev, h) else findNextBoundariesAux known genesisHash (some h) rest

/-- Translation of FindNextLocatorBoundaries (blocklocator.go:97): locally-known
blocks are given by the predicate (LookupNode success), genesis is assumed stored. -/
def FindNextLocatorBoundaries (known : Nat → Bool) (genesisHash : Nat)
    (locator : List Nat) : Option Nat × Nat :=
  findNextBoundariesAux known genesisHash none locator

/-- The first locator entry that is unknown locally, in locator order: the object
claim C5 asserts FindNextLocatorBoundaries returns as highHash (stated from the
spec's words, for comparison with the translation above). -/
def firstUnknownEntry (known : Nat → Bool) : List Nat → Option Nat
  | [] => none
  | h :: rest => if known h then firstUnknownEntry known rest else some h

/-! ## GHOSTDAG engine

Modelled from the spec: the GHOSTDAG implementations (ghostdagmanager / ghostdag2)
are not under src/; src does contain the test that drives them (the TestGHOSTDA
function embedded in
src/domain/consensus/datastructures/headersselectedtipstore/headertipsstore.go),
which fixes the data model, the genesis seeding (blueScore 1, no selected parent)
and the expected outputs.  The algorithm below follows spec section 4.2 with those
test vectors as the authority for tie-breaking and ordering. -/

/-- Per-block GHOSTDAG data (spec section 3; model.BlockGHOSTDAGData as the src test
populates it).  The bluesAnticoneSizes memo of the source is an optimisation of the
k-cluster check and is recomputed here instead of stored. -/
structure BlockGHOSTDAGData where
  blueScore : Nat
  blueWork : Nat
  selectedParent : Option Nat
  mergeSetBlues : List Nat
  mergeSetReds : List Nat
  deriving DecidableEq

/-- The DAG state the engine works on: the parents map (DAGTopologyManager) and the
per-block data map (GHOSTDAGDataStore), exactly the two stores the src test wires. -/
structure GhostdagState where
  parentsMap : List (Nat × List Nat)
  dataMap : List (Nat × BlockGHOSTDAGData)
  deriving DecidableEq

/-- Association lookup in a (hash, value) list. -/
def lookupPairs {α : Type} (l : List (Nat × α)) (h : Nat) : Option α :=
  (l.find? (fun p => p.1 == h)).map Prod.snd

/-- GHOSTDAGDataStore.Get. -/
def lookupData (s : GhostdagState) (h : Nat) : Option BlockGHOSTDAGData :=
  lookupPairs s.dataMap h

/-- DAGTopologyManager.Parents. -/
def lookupParents (s : GhostdagState) (h : Nat) : Option (List Nat) :=
  lookupPairs s.parentsMap h

/-- Modelled from the spec: GHOSTDAG selected-parent choice (section 4.2 step 1:
maximal blueWork) with the tie direction fixed by the src test (TestGHOSTDA test 3,
"Selected Parent choice: same score – decide by hashes", expects block 4 chosen among
the tied parents {2,3,4}): the larger hash wins a tie.  Fold keeping the best
candidate so far; a parent without stored data fails the computation (Go error). -/
def findSelectedParentAux (s : GhostdagState) :
    Nat × BlockGHOSTDAGData → List Nat → Option (Nat × BlockGHOSTDAGData)
  | best, [] => some best
  | best, p :: rest =>
    match lookupData s p with
    | none => none
    | some pd =>
      findSelectedParentAux s
        (if best.2.blueWork < pd.blueWork ∨ (best.2.blueWork = pd.blueWork ∧ best.1 < p)
         then (p, pd) else best) rest

/-- Selected parent of a parent list: the stored parent maximising (blueWork, hash). -/
def findSelectedParent (s : GhostdagState) : List Nat → Option (Nat × BlockGHOSTDAGData)
  | [] => none
  | p :: rest =>
    match lookupData s p with
    | none => none
    | some pd => findSelectedParentAux s (p, pd) rest

/-- Fuel amply covering a full traversal of the stored DAG from the given frontier:
every block enters the frontier at most once per parent edge plus once initially. -/
def dagFuel (s : GhostdagState) (frontier : List Nat) : Nat :=
  frontier.length + (s.parentsMap.map (fun p => p.2.length)).sum + s.parentsMap.length + 2

/-- All blocks reachable from the frontier through the parents map, the frontier
included: the DAG past of a block is reachInclusive of its parents. -/
def reachInclusive (s : GhostdagState) : Nat → List Nat → List Nat → List Nat
  | 0, _, visited => visited
  | fuel + 1, frontier, visited =>
    match frontier with
    | [] => visited
    | h :: rest =>
      if visited.contains h then reachInclusive s fuel rest visited
      else reachInclusive s fuel (rest ++ ((lookupParents s h).getD [])) (h :: visited)

/-- The past of a stored block: everything reachable from its parents. -/
def pastOf (s : GhostdagState) (h : Nat) : List Nat :=
  let start := (lookupParents s h).getD []
  reachInclusive s (dagFuel s start) start []

/-- Spec section 4.2 step 2: the merge set of a new block with the given parents and
selected parent — its past (reachable from the parents, parents included) minus the
past of the selected parent; the selected parent itself belongs to it. -/
def mergeSetOf (s : GhostdagState) (parents : List Nat) (sp : Nat) : List Nat :=
  let past := reachInclusive s (dagFuel s parents) parents []
  let spPast := pastOf s sp
  past.filter (fun h => !(spPast.contains h))

/-- Insertion into a list sorted by the (blueScore, hash) key, ascending. -/
def insertByKey (key : Nat → Nat × Nat) (x : Nat) : List Nat → List Nat
  | [] => [x]
  | y :: rest =>
    if (key x).1 < (key y).1 ∨ ((key x).1 = (key y).1 ∧ (key x).2 ≤ (key y).2)
    then x :: y :: rest
    else y :: insertByKey key x rest

/-- Insertion sort by the (blueScore, hash) key: spec section 4.2's deterministic
merge-set order (topological by blue score, ties broken by hash), matching the orders
the src test expects. -/
def sortByKey (key : Nat → Nat × Nat) : List Nat → List Nat
  | [] => []
  | x :: rest => insertByKey key x (sortByKey key rest)

/-- Union of two hash lists without duplicates. -/
def unionList (a b : List Nat) : List Nat :=
  a.foldr (fun x acc => if acc.contains x then acc else x :: acc) b

/-- The blue set of a stored block, itself included: itself, its blue merge set and
the blue set of its selected parent (fuelled by chain length). -/
def blueSetOf (s : GhostdagState) : Nat → Nat → List Nat
  | 0, h => [h]
  | fuel + 1, h =>
    match lookupData s h with
    | none => [h]
    | some d =>
      match d.selectedParent with
      | none => [h]
      | some sp => unionList (h :: d.mergeSetBlues) (blueSetOf s fuel sp)

/-- Whether a is a strict DAG ancestor of b in the stored topology. -/
def inPast (s : GhostdagState) (a b : Nat) : Bool :=
  (pastOf s b).contains a

/-- Whether a lies in the anticone of b: distinct and neither is an ancestor of the
other. -/
def inAnticone (s : GhostdagState) (a b : Nat) : Bool :=
  a != b && !(inPast s a b) && !(inPast s b a)

/-- Size of the intersection of the anticone of x with the given set. -/
def anticoneCountIn (s : GhostdagState) (x : Nat) (set : List Nat) : Nat :=
  (set.filter (fun y => inAnticone s y x)).length

/-- Spec section 4.2 step 3, the k-cluster check for one candidate c: c stays within
an anticone of at most k blues, and every current blue keeps an anticone of at most k
within the blue set grown by c. -/
def candidateIsBlue (s : GhostdagState) (k : Nat) (blueSet : List Nat) (c : Nat) : Bool :=
  decide (anticoneCountIn s c blueSet ≤ k) &&
    blueSet.all (fun x => decide (anticoneCountIn s x (c :: blueSet) ≤ k))

/-- Colours the candidate list in order against a growing blue set; returns the blue
and red candidates in processing order. -/
def colorMergeSet (s : GhostdagState) (k : Nat) :
    List Nat → List Nat → List Nat × List Nat
  | _, [] => ([], [])
  | blueSet, c :: rest =>
    if candidateIsBlue s k blueSet c then
      let r := colorMergeSet s k (c :: blueSet) rest
      (c :: r.1, r.2)
    else
      let r := colorMergeSet s k blueSet rest
      (r.1, c :: r.2)

/-- One GHOSTDAG computation (spec section 4.2) for a block with the given hash and
parents, driven exactly as the src test drives the engine: register the parents,
choose the selected parent, compute and order the merge set, colour it (the selected
parent is the first blue, as every src test vector shows), then derive
blueScore = blueScore(selectedParent) + |mergeSetBlues| and
blueWork = blueWork(selectedParent) + sum of work over mergeSetBlues (section 4.2
steps 4 and 5).  A block already carrying data or with an unstored parent leaves the
state unchanged. -/
def ghostdagNewData (k : Nat) (work : Nat → Nat) (s2 : GhostdagState) (sp : Nat)
    (spData : BlockGHOSTDAGData) (parents : List Nat) : BlockGHOSTDAGData :=
  let mergeSet := mergeSetOf s2 parents sp
  let candidates :=
    sortByKey (fun c => (((lookupData s2 c).map (fun d => d.blueScore)).getD 0, c))
      (mergeSet.filter (fun c => c != sp))
  let blueSetStart := blueSetOf s2 (s2.dataMap.length + 1) sp
  let colored := colorMergeSet s2 k blueSetStart candidates
  let blues := sp :: colored.1
  { blueScore := spData.blueScore + blues.length
    blueWork := spData.blueWork + (blues.map work).sum
    selectedParent := some sp
    mergeSetBlues := blues
    mergeSetReds := colored.2 }

/-- The state transition of one GHOSTDAG computation: register the new block's
parents and stage its data. -/
def ghostdagStep (k : Nat) (work : Nat → Nat) (s : GhostdagState)
    (h : Nat) (parents : List Nat) : GhostdagState :=
  if (lookupData s h).isSome then s
  else
    match findSelectedParent s parents with
    | none => s
    | some (sp, spData) =>
      let s2 : GhostdagState := ⟨(h, parents) :: s.parentsMap, s.dataMap⟩
      ⟨s2.parentsMap, (h, ghostdagNewData k work s2 sp spData parents) :: s2.dataMap⟩

/-- Genesis GHOSTDAG data exactly as the src test seeds the store (TestGHOSTDA,
headertipsstore.go lines 517..523): blueScore 1, no selected parent, empty merge
sets; the omitted blue work is Go's zero value. -/
def genesisGHOSTDAGData : BlockGHOSTDAGData :=
  { blueScore := 1, blueWork := 0, selectedParent := none
    mergeSetBlues := [], mergeSetReds := [] }

/-- Initial state as the src test builds it: genesis (hash 0) with no parents and the
seeded data. -/
def initialGhostdagState : GhostdagState :=
  ⟨[(0, [])], [(0, genesisGHOSTDAGData)]⟩

/-- Runs the engine over a list of (block, parents) insertions, as the src test's
subTests loop does. -/
def ghostdagRun (k : Nat) (work : Nat → Nat) (blocks : List (Nat × List Nat)) : GhostdagState :=
  blocks.foldl (fun s b => ghostdagStep k work s b.1 b.2) initialGhostdagState

/-- The insertions of src TestGHOSTDA test 3 (selected-parent tie broken by hashes):
a chain 0 → 1, three tied siblings 2, 3, 4 on top of 1, and block 5 merging them. -/
def tieBreakBlocks : List (Nat × List Nat) :=
  [(1, [0]), (2, [1]), (3, [1]), (4, [1]), (5, [2, 3, 4])]

/-- The state after running test 3 with k = 3 and unit work per block. -/
def tieBreakState : GhostdagState :=
  ghostdagRun 3 (fun _ => 1) tieBreakBlocks

/-- The insertions of src TestGHOSTDA test 1: the chain 0 → 1 → 2 → 3 with k = 0. -/
def chainBlocks : List (Nat × List Nat) :=
  [(1, [0]), (2, [1]), (3, [2])]

/-! ## Further definitions used by the claim theorems -/

/-- Per-element contribution of getSigOpCount's loop body, as the code computes it:
the preceding opcode must be OP_1..OP_16 for the precise multisig count. -/
def sigOpContribution (precise : Bool) (prev : Option Nat) (v : Nat) : Nat :=
  if v = 172 ∨ v = 173 then 1
  else if v = 174 ∨ v = 175 then
    match prev with
    | some pv => if precise = true ∧ 81 ≤ pv ∧ pv ≤ 96 then asSmallInt pv else 20
    | none => 20
  else 0

/-- The previous opcode value at loop position i (none at position 0). -/
def prevOpcodeValue (pops : List ParsedOpcode) (i : Nat) : Option Nat :=
  match i with
  | 0 => none
  | j + 1 => (pops[j]?).map (fun p => p.value)

/-- Per-element contribution exactly as claim C8 words it: the preceding opcode counts
whenever it is a small-int in the isSmallInt sense, OP_0 included (stated from the
claim's words, for comparison with sigOpContribution above). -/
def claimSigOpContribution (precise : Bool) (prev : Option Nat) (v : Nat) : Nat :=
  if v = 172 ∨ v = 173 then 1
  else if v = 174 ∨ v = 175 then
    match prev with
    | some pv => if precise = true ∧ isSmallInt pv = true then asSmallInt pv else 20
    | none => 20
  else 0

/-- Total sig-op count under claim C8's contribution rule. -/
def claimSigOpCount (precise : Bool) (prev : Option Nat) : List ParsedOpcode → Nat
  | [] => 0
  | pop :: rest =>
    claimSigOpContribution precise prev pop.value + claimSigOpCount precise (some pop.value) rest

/-- A standard pay-to-script-hash script public key:
    OP_HASH160, OP_DATA_20 with twenty zero bytes, OP_EQUAL. -/
def p2shScriptPubKey : ScriptPublicKey :=
  ⟨0, [169, 20, 0, 0, 0, 0, 0, 0, 0, 0, 0, 0, 0, 0, 0, 0, 0, 0, 0, 0, 0, 0, 135]⟩

/-- The transaction of spec test 8: three inputs and two outputs. -/
def tx3in2out : DomainTransaction :=
  { version := 0
    inputs := [⟨⟨0, 0⟩, [], 1⟩, ⟨⟨0, 1⟩, [], 1⟩, ⟨⟨0, 2⟩, [], 1⟩]
    outputs := [⟨5, ⟨0, []⟩⟩, ⟨6, ⟨0, []⟩⟩]
    lockTime := 0
    subnetworkId := []
    gas := 0
    payloadHash := 0
    payload := [] }

/-- A base pair whose entry carries blue score 5. -/
def keptPair : UTXOPair := (⟨1, 0⟩, ⟨100, ⟨0, []⟩, 5, false⟩)

/-- A toRemove pair on the same outpoint but with blue score 6. -/
def removedPair : UTXOPair := (⟨1, 0⟩, ⟨100, ⟨0, []⟩, 6, false⟩)

/-- Lexicographic (blueWork, hash) dominance: a is at least as good a selected-parent
candidate as b. -/
def dominates (a b : Nat × BlockGHOSTDAGData) : Prop :=
  b.2.blueWork < a.2.blueWork ∨ (b.2.blueWork = a.2.blueWork ∧ b.1 ≤ a.1)

/-- The two store properties every reachable GHOSTDAG state keeps: a stored selected
parent is itself stored, and every stored block's blue score is its selected parent's
blue score plus the size of its blue merge set (claim C3's invariant). -/
def ghostdagInvariant (s : GhostdagState) : Prop :=
  (∀ h d, lookupData s h = some d → ∀ sp, d.selectedParent = some sp →
    (lookupData s sp).isSome = true) ∧
  (∀ h d sp spd, lookupData s h = some d → d.selectedParent = some sp →
    lookupData s sp = some spd → d.blueScore = spd.blueScore + d.mergeSetBlues.length)

/-! ## Helper lemmas -/

/-- Unfolding getSigOpCountAux one step through the factored contribution. -/
theorem getSigOpCountAux_cons (precise : Bool) (prev : Option Nat)
    (pop : ParsedOpcode) (rest : List ParsedOpcode) :
    getSigOpCountAux precise prev (pop :: rest) =
      sigOpContribution precise prev pop.value + getSigOpCountAux precise (some pop.value) rest := rfl

/-- Thread the previous-opcode seed: the loop of getSigOpCount sums the per-element
contributions at their positions. -/
theorem getSigOpCountAux_eq_sum (pops : List ParsedOpcode) :
    ∀ (precise : Bool) (prev : Option Nat),
    getSigOpCountAux precise prev pops =
      ∑ i ∈ Finset.range pops.length,
        sigOpContribution precise
          (match i with
           | 0 => prev
           | Nat.succ j => (pops[j]?).map (fun p => p.value))
          ((pops.getD i ⟨0, []⟩).value) := by
  induction pops with
  | nil => intro precise prev; simp [getSigOpCountAux]
  | cons pop rest ih =>
    intro precise prev
    rw [getSigOpCountAux_cons, ih precise (some pop.value), List.length_cons,
      Finset.sum_range_succ']
    rw [Nat.add_comm]
    congr 1
    apply Finset.sum_congr rfl
    intro i _
    cases i <;> simp

/-! ## Claim theorems -/

/-- Claim C8 (corrected): over any parsed script, getSigOpCount is the sum of
per-opcode contributions where OP_CHECKSIG / OP_CHECKSIG_VERIFY give 1 and
OP_CHECKMULTISIG / OP_CHECKMULTISIG_VERIFY give the value of the immediately
preceding opcode when precise mode holds and that opcode is OP_1..OP_16 (OP_0, though
a small integer for isSmallInt, does not qualify), and 20 otherwise; no other opcode
contributes. -/
theorem C8_sigop_contribution_sum (pops : List ParsedOpcode) (precise : Bool) :
    getSigOpCount pops precise =
      ∑ i ∈ Finset.range pops.length,
        sigOpContribution precise (prevOpcodeValue pops i) ((pops.getD i ⟨0, []⟩).value) := by
  rw [getSigOpCount, getSigOpCountAux_eq_sum]
  apply Finset.sum_congr rfl
  intro i _
  cases i <;> rfl

/-- Counterexample to claim C8 as stated: for the parsed script [OP_0,
OP_CHECKMULTISIG] in precise mode the code counts 20, while the claim's rule — the
value of the preceding small-int opcode, with OP_0 a small-int of value 0 — totals 0. -/
theorem C8_claim_counterexample :
    getSigOpCount (parseScript [0, 174]).1 true = 20 ∧
    claimSigOpCount true none (parseScript [0, 174]).1 = 0 ∧
    isSmallInt 0 = true ∧ asSmallInt 0 = 0 := by decide

/-- Counterexample to claim C7 as stated: a P2SH pair whose redeem script
[OP_CHECKSIG, OP_DATA_20] is malformed (the push overruns) but whose precise sig-op
count is 1, the count up to the parse failure, not 0. -/
theorem C7_claim_counterexample :
    IsPayToScriptHash p2shScriptPubKey = true ∧
    (parseScript [172, 20]).2 = some ScriptErr.malformedPush ∧
    ((((parseScript [2, 172, 20]).1.getLast?).getD ⟨0, []⟩).data = [172, 20]) ∧
    GetPreciseSigOpCount [2, 172, 20] p2shScriptPubKey true = 1 := by decide

/-- Claim C7 (corrected): for P2SH inputs (the script public key parses to the P2SH
pattern) with a well-formed push-only non-empty signature script whose last push is
non-empty, GetPreciseSigOpCount counts the redeem script — the data of that last
push — re-parsed in precise mode, over the opcodes parsed up to any parse failure
(a malformed redeem script therefore counts its prefix, not 0). -/
theorem C7_p2sh_redeem_counting (scriptSig : List Nat) (spk : ScriptPublicKey)
    (sigPops : List ParsedOpcode)
    (hish : isScriptHash (parseScript spk.script).1 = true)
    (hparse : parseScript scriptSig = (sigPops, none))
    (hpush : isPushOnly sigPops = true)
    (hne : sigPops ≠ [])
    (hdata : ((sigPops.getLast?).getD ⟨0, []⟩).data ≠ []) :
    GetPreciseSigOpCount scriptSig spk true =
      getSigOpCount (parseScript (((sigPops.getLast?).getD ⟨0, []⟩).data)).1 true := by
  have hlen : sigPops.length ≠ 0 := by
    intro h0
    exact hne (List.length_eq_zero.mp h0)
  have hdlen : (((sigPops.getLast?).getD ⟨0, []⟩).data).length ≠ 0 := by
    intro h0
    exact hdata (List.length_eq_zero.mp h0)
  unfold GetPreciseSigOpCount
  rw [hparse]
  simp [hish, hpush, hlen, hdlen]

/-- Witness for the corrected C7 at a well-formed P2SH spend: redeem script
[OP_2, OP_CHECKMULTISIG], counted precisely as 2. -/
theorem C7_witness :
    GetPreciseSigOpCount [2, 82, 174] p2shScriptPubKey true =
      getSigOpCount (parseScript [82, 174]).1 true :=
  C7_p2sh_redeem_counting [2, 82, 174] p2shScriptPubKey [⟨2, [82, 174]⟩]
    (by decide) (by decide) (by decide) (by decide) (by decide)

/-- Claim C6 (confirmed): for a known script version and a parsable previous script
public key, CalcSignatureHash on a hash type whose masked low five bits are
SigHashSingle fails with ErrInvalidSigHashSingleIndex exactly when the input index is
at least the number of outputs. -/
theorem C6_sigHashSingle_boundary (spk : ScriptPublicKey) (hashType : Nat)
    (tx : DomainTransaction) (idx : Nat)
    (hver : spk.version ≤ MaxScriptPublicKeyVersion)
    (hparse : (parseScript spk.script).2 = none)
    (hmask : hashType &&& sigHashMask = SigHashSingle)
    (hidx : idx < tx.inputs.length) :
    CalcSignatureHash spk hashType tx idx = Except.error ScriptErr.invalidSigHashSingleIndex
      ↔ tx.outputs.length ≤ idx := by
  unfold CalcSignatureHash CalcSignatureHashTracked
  rw [if_neg (Nat.not_lt.mpr hver)]
  rcases hp : parseScript spk.script with ⟨pops, e⟩
  have he : e = none := by rw [hp] at hparse; exact hparse
  subst he
  dsimp only
  unfold calcSignatureHashTracked
  by_cases hle : tx.outputs.length ≤ idx
  · rw [if_pos ⟨hmask, hle⟩]
    simp [hle]
  · rw [if_neg (fun hc => hle hc.2)]
    simp [hle]

/-- Witness for C6 at the spec's test 8: three inputs, two outputs, SigHashSingle at
input index 2 fails with ErrInvalidSigHashSingleIndex. -/
theorem C6_witness :
    CalcSignatureHash ⟨0, []⟩ SigHashSingle tx3in2out 2 =
      Except.error ScriptErr.invalidSigHashSingleIndex :=
  (C6_sigHashSingle_boundary ⟨0, []⟩ SigHashSingle tx3in2out 2 (by decide) (by decide)
    (by decide) (by decide)).mpr (by decide)

/-- Claim C10 (confirmed): CalcSignatureHash leaves the caller's transaction
observationally unchanged — the transaction as seen by the caller after the call is
the transaction passed in, for every hash type and index. -/
theorem C10_frame (spk : ScriptPublicKey) (hashType : Nat)
    (tx : DomainTransaction) (idx : Nat) :
    (CalcSignatureHashTracked spk hashType tx idx).2 = tx := by
  unfold CalcSignatureHashTracked
  split
  · rfl
  · split
    · rfl
    · unfold calcSignatureHashTracked
      split <;> rfl

/-- Exhausting the iterator once the base is done yields the remaining toAdd pairs. -/
theorem iterCollect_adds (d : UTXODiff) (adds : List UTXOPair) :
    ∀ (fuel : Nat), adds.length ≤ fuel → iterCollect d fuel [] adds = adds := by
  induction adds with
  | nil =>
    intro fuel h
    cases fuel with
    | zero => rfl
    | succ f => simp [iterCollect, iterNextAux]
  | cons a rest ih =>
    intro fuel h
    cases fuel with
    | zero => simp at h
    | succ f =>
      simp only [iterCollect, iterNextAux]
      rw [ih f (by simpa using h)]

/-- The iterator loop equals a filter of the base followed by toAdd. -/
theorem iterCollect_spec (d : UTXODiff) :
    ∀ (bs as : List UTXOPair) (fuel : Nat), bs.length + as.length ≤ fuel →
    iterCollect d fuel bs as =
      bs.filter (fun p => !(containsWithBlueScore d.toRemove p.1 p.2.blockBlueScore)) ++ as := by
  intro bs
  induction bs with
  | nil =>
    intro as fuel h
    simpa using iterCollect_adds d as fuel (by simpa using h)
  | cons b rest ih =>
    intro as fuel h
    by_cases hc : containsWithBlueScore d.toRemove b.1 b.2.blockBlueScore = true
    · have hskip : iterCollect d fuel (b :: rest) as = iterCollect d fuel rest as := by
        cases fuel with
        | zero => rfl
        | succ f => simp [iterCollect, iterNextAux, hc]
      rw [hskip, ih as fuel (by simp at h; omega)]
      simp [List.filter_cons, hc]
    · have hc2 : containsWithBlueScore d.toRemove b.1 b.2.blockBlueScore = false := by
        simpa using hc
      cases fuel with
      | zero => simp at h
      | succ f =>
        have hnext : iterNextAux d (b :: rest) as = some (b, (rest, as)) := by
          simp [iterNextAux, hc2]
        simp only [iterCollect, hnext]
        rw [ih as f (by simp at h; omega)]
        simp [List.filter_cons, hc2]

/-- Claim C9 (corrected): the iterator over base with a diff yields exactly the base
pairs whose outpoint is not in toRemove with the same blockBlueScore, in base order,
followed by every toAdd pair; a base pair whose outpoint appears in toRemove under a
different blue score is still yielded. -/
theorem C9_iterator_with_diff (base : List UTXOPair) (d : UTXODiff) :
    iteratorWithDiffAll base d =
      base.filter (fun p => !(containsWithBlueScore d.toRemove p.1 p.2.blockBlueScore)) ++ d.toAdd :=
  iterCollect_spec d base d.toAdd (base.length + d.toAdd.length + 1) (by omega)

/-- Counterexample to claim C9 as stated: the base pair's outpoint is present in
toRemove (with blue score 6, the base entry has 5), yet the pair is yielded from the
base. -/
theorem C9_claim_counterexample :
    iteratorWithDiffAll [keptPair] ⟨[], [removedPair]⟩ = [keptPair] ∧
    keptPair.1 ∈ [removedPair].map Prod.fst := by decide

/-- getLast? of a cons, phrased through Option.or. -/
theorem getLast?_cons_or {α : Type} (p : α) (l : List α) :
    (p :: l).getLast? = l.getLast?.or (some p) := by
  induction l generalizing p with
  | nil => rfl
  | cons q r ih =>
    rw [List.getLast?_cons_cons, ih q]
    cases hr : r.getLast? <;> simp

/-- The boundary scan on a locator whose prefix is unknown and whose next entry is
known returns the last prefix entry (or the seed) and that known entry. -/
theorem findNextBoundariesAux_found (known : Nat → Bool) (g : Nat) :
    ∀ (pre : List Nat) (k : Nat) (rest : List Nat) (prev : Option Nat),
    (∀ x ∈ pre, known x = false) → known k = true →
    findNextBoundariesAux known g prev (pre ++ k :: rest) = (pre.getLast?.or prev, k) := by
  intro pre
  induction pre with
  | nil =>
    intro k rest prev hpre hk
    simp [findNextBoundariesAux, hk]
  | cons p pr ih =>
    intro k rest prev hpre hk
    have hp : known p = false := hpre p (by simp)
    have hstep : findNextBoundariesAux known g prev ((p :: pr) ++ k :: rest) =
        findNextBoundariesAux known g (some p) (pr ++ k :: rest) := by
      simp [findNextBoundariesAux, hp]
    rw [hstep, ih k rest (some p) (fun x hx => hpre x (by simp [hx])) hk]
    rw [getLast?_cons_or]
    cases hx : pr.getLast? <;> simp

/-- The boundary scan on an all-unknown locator returns the last entry scanned (or
the seed) and genesis. -/
theorem findNextBoundariesAux_none (known : Nat → Bool) (g : Nat) :
    ∀ (locator : List Nat) (prev : Option Nat),
    (∀ x ∈ locator, known x = false) →
    findNextBoundariesAux known g prev locator = (locator.getLast?.or prev, g) := by
  intro locator
  induction locator with
  | nil => intro prev hloc; rfl
  | cons p pr ih =>
    intro prev hloc
    have hp : known p = false := hloc p (by simp)
    have hstep : findNextBoundariesAux known g prev (p :: pr) =
        findNextBoundariesAux known g (some p) pr := by
      simp [findNextBoundariesAux, hp]
    rw [hstep, ih (some p) (fun x hx => hloc x (by simp [hx]))]
    rw [getLast?_cons_or]
    cases hx : pr.getLast? <;> simp

/-- Claim C5 (corrected): FindNextLocatorBoundaries returns as highHash the unknown
locator entry immediately preceding the first locally-known entry — the last entry of
the locator's initial unknown run, not its first entry — together with that first
known entry as lowHash (highHash is none when the first entry is known); when every
entry is unknown it returns the last locator entry and genesis. -/
theorem C5_boundaries :
    (∀ (known : Nat → Bool) (g : Nat) (pre : List Nat) (k : Nat) (rest : List Nat),
      (∀ x ∈ pre, known x = false) → known k = true →
      FindNextLocatorBoundaries known g (pre ++ k :: rest) = (pre.getLast?, k)) ∧
    (∀ (known : Nat → Bool) (g : Nat) (locator : List Nat),
      (∀ x ∈ locator, known x = false) →
      FindNextLocatorBoundaries known g locator = (locator.getLast?, g)) := by
  constructor
  · intro known g pre k rest hpre hk
    rw [FindNextLocatorBoundaries, findNextBoundariesAux_found known g pre k rest none hpre hk]
    cases hx : pre.getLast? <;> simp
  · intro known g locator hloc
    rw [FindNextLocatorBoundaries, findNextBoundariesAux_none known g locator none hloc]
    cases hx : locator.getLast? <;> simp

/-- Witness for the corrected C5: on the locator [10, 20, 30] with only 30 known the
boundaries are (20, 30); on the all-unknown locator [4, 5] with genesis 7 they are
(5, 7). -/
theorem C5_witness :
    FindNextLocatorBoundaries (fun h => h == 30) 0 [10, 20, 30] = (some 20, 30) ∧
    FindNextLocatorBoundaries (fun _ => false) 7 [4, 5] = (some 5, 7) := by
  constructor
  · have h := C5_boundaries.1 (fun h => h == 30) 0 [10, 20] 30 [] (by decide) (by decide)
    simpa using h
  · have h := C5_boundaries.2 (fun _ => false) 7 [4, 5] (by decide)
    simpa using h

/-- Counterexample to claim C5 as stated: on [10, 20, 30] with only 30 known locally,
the first locator entry that is unknown locally is 10, but FindNextLocatorBoundaries
returns 20 as highHash. -/
theorem C5_claim_counterexample :
    (FindNextLocatorBoundaries (fun h => h == 30) 0 [10, 20, 30]).1 = some 20 ∧
    firstUnknownEntry (fun h => h == 30) [10, 20, 30] = some 10 ∧
    some (20 : Nat) ≠ some (10 : Nat) := by decide

/-- selectedAncestor returns its node unchanged when the node already satisfies the
blue-score bound. -/
theorem selectedAncestor_self (store : Nat → Option BlockNode) (fuel : Nat)
    (node : BlockNode) (t : Nat) (h : node.blueScore ≤ t) :
    selectedAncestor store (fuel + 1) node t = some node := by
  simp [selectedAncestor, h]

/-- Once the locator loop reaches block 1 of the 0..20 chain with any step that is a
positive multiple of 16 (reduced mod 2^64), the wrapped subtraction
`node.BlueScore() - step` can never produce a target below blue score 1, so
SelectedAncestor keeps returning block 1 and the loop never terminates, whatever fuel
it is given. -/
theorem blockLocator_stuck : ∀ (fuel s : Nat) (acc : List Nat),
    16 ∣ s % U64 →
    blockLocatorLoop chainStore ⟨0, 0, none⟩ fuel ⟨1, 1, some 0⟩ s acc = none := by
  intro fuel
  induction fuel with
  | zero => intro s acc hdvd; rfl
  | succ f ih =>
    intro s acc hdvd
    have hU : 0 < U64 := by norm_num [U64]
    have hrlt : s % U64 < U64 := Nat.mod_lt _ hU
    have hcase : s % U64 = 0 ∨ 16 ≤ s % U64 := by
      rcases Nat.eq_zero_or_pos (s % U64) with h0 | hpos
      · exact Or.inl h0
      · exact Or.inr (Nat.le_of_dvd hpos hdvd)
    have htarget : 1 ≤ u64sub 1 s := by
      unfold u64sub
      rcases hcase with h0 | h16
      · rw [h0, Nat.sub_zero, Nat.add_mod_right]
        exact Nat.le_refl 1
      · have hlt : 1 + (U64 - s % U64) < U64 := by omega
        rw [Nat.mod_eq_of_lt hlt]
        omega
    have hsa : selectedAncestor chainStore 64 ⟨1, 1, some 0⟩
        (u64sub 1 s) = some ⟨1, 1, some 0⟩ := by
      have h64 : (64 : Nat) = 63 + 1 := rfl
      rw [h64]
      exact selectedAncestor_self chainStore 63 ⟨1, 1, some 0⟩ (u64sub 1 s) htarget
    have h16U : (16 : Nat) ∣ U64 := by norm_num [U64]
    have hdvd2 : 16 ∣ (s * 2) % U64 % U64 := by
      rw [Nat.mod_eq_of_lt (Nat.mod_lt _ hU), Nat.mul_mod, Nat.dvd_mod_iff h16U]
      exact Dvd.dvd.mul_right hdvd (2 % U64)
    have hif : (if u64sub 1 s < (0 : Nat) then (0 : Nat) else u64sub 1 s) = u64sub 1 s :=
      if_neg (Nat.not_lt_zero _)
    simp only [blockLocatorLoop]
    rw [hif, hsa]
    exact ih ((s * 2) % U64) (acc ++ [1]) hdvd2

/-- Claim C4 (code bug): on the selected-parent chain 0..20 with highHash block 17
and lowHash genesis, blockLocator never returns, whatever fuel the loop is given:
after emitting 16, 15, 13, 9 the step reaches 16 while the walk stands at block 1
(blue score 1), the uint64 subtraction at blocklocator.go:78 wraps below zero, and
SelectedAncestor returns block 1 forever — instead of the documented locator
[17, 16, 14, 11, 7, 2, genesis]. -/
theorem C4_locator_divergence : ∀ (fuel : Nat),
    blockLocator chainStore ⟨17, 17, some 16⟩ ⟨0, 0, none⟩ fuel = none := by
  intro fuel
  rcases Nat.lt_or_ge fuel 4 with hlt | hge
  · interval_cases fuel <;> rfl
  · obtain ⟨f, rfl⟩ : ∃ f, fuel = f + 4 := ⟨fuel - 4, by omega⟩
    have hstep : blockLocator chainStore ⟨17, 17, some 16⟩ ⟨0, 0, none⟩ (f + 4) =
        blockLocatorLoop chainStore ⟨0, 0, none⟩ f ⟨1, 1, some 0⟩ 16 [16, 15, 13, 9] := by
      rfl
    rw [hstep]
    exact blockLocator_stuck f 16 [16, 15, 13, 9] (by decide)

/-- Control: the embedding does terminate where no underflow occurs — the locator
from block 2 down to genesis is [1, 0]. -/
theorem blockLocator_small_control :
    blockLocator chainStore ⟨2, 2, some 1⟩ ⟨0, 0, none⟩ 30 = some (Except.ok [1, 0]) := by rfl

/-- Control: the not-same-chain error of blocklocator.go:69..72 is reachable — a lone
side block at blue score 0 that is not genesis. -/
theorem blockLocator_mismatch_control :
    blockLocator (fun h => if h = 9 then some ⟨9, 0, none⟩ else chainStore h)
      ⟨2, 2, some 1⟩ ⟨9, 0, none⟩ 30 = some (Except.error ()) := by rfl

/-- dominates is reflexive. -/
theorem dominates_refl (a : Nat × BlockGHOSTDAGData) : dominates a a :=
  Or.inr ⟨rfl, Nat.le_refl _⟩

/-- dominates is transitive. -/
theorem dominates_trans {a b c : Nat × BlockGHOSTDAGData} :
    dominates a b → dominates b c → dominates a c := by
  intro h1 h2
  unfold dominates at h1 h2 ⊢
  omega

/-- The selected-parent fold returns a stored pair from the candidates that
(blueWork, hash)-dominates the seed and every stored candidate. -/
theorem findSelectedParentAux_spec (s : GhostdagState) :
    ∀ (rest : List Nat) (best : Nat × BlockGHOSTDAGData) (sp : Nat) (d : BlockGHOSTDAGData),
    lookupData s best.1 = some best.2 →
    findSelectedParentAux s best rest = some (sp, d) →
    lookupData s sp = some d ∧ ((sp, d) = best ∨ sp ∈ rest) ∧ dominates (sp, d) best ∧
      (∀ p pd, p ∈ rest → lookupData s p = some pd → dominates (sp, d) (p, pd)) := by
  intro rest
  induction rest with
  | nil =>
    intro best sp d hbest heq
    simp only [findSelectedParentAux, Option.some.injEq] at heq
    subst heq
    exact ⟨hbest, Or.inl rfl, dominates_refl _, by intro p pd hp _; simp at hp⟩
  | cons q rest ih =>
    intro best sp d hbest heq
    rcases hq : lookupData s q with _ | qd
    · simp only [findSelectedParentAux, hq] at heq
      exact Option.noConfusion heq
    · simp only [findSelectedParentAux, hq] at heq
      by_cases hcond : best.2.blueWork < qd.blueWork ∨
          (best.2.blueWork = qd.blueWork ∧ best.1 < q)
      · rw [if_pos hcond] at heq
        obtain ⟨hlk, hmem, hdom, hall⟩ := ih (q, qd) sp d (by simpa using hq) heq
        have hqb : dominates (q, qd) best := by unfold dominates; dsimp only; omega
        refine ⟨hlk, ?_, dominates_trans hdom hqb, ?_⟩
        · rcases hmem with hh | hh
          · injection hh with h1 h2
            right
            simp [h1]
          · right
            exact List.mem_cons_of_mem q hh
        · intro p pd hp hlp
          rcases List.mem_cons.mp hp with rfl | hp2
          · rw [hq] at hlp
            injection hlp with hpd
            subst hpd
            exact hdom
          · exact hall p pd hp2 hlp
      · rw [if_neg hcond] at heq
        obtain ⟨hlk, hmem, hdom, hall⟩ := ih best sp d hbest heq
        refine ⟨hlk, ?_, hdom, ?_⟩
        · rcases hmem with hh | hh
          · exact Or.inl hh
          · right
            exact List.mem_cons_of_mem q hh
        · intro p pd hp hlp
          rcases List.mem_cons.mp hp with rfl | hp2
          · rw [hq] at hlp
            injection hlp with hpd
            subst hpd
            have hbq : dominates best (p, qd) := by unfold dominates; dsimp only; omega
            exact dominates_trans hdom hbq
          · exact hall p pd hp2 hlp

/-- Claim C1 (corrected): the selected parent returned for a parent list is a stored
parent of maximal blueWork, and among parents tied at that maximal blueWork it is the
one with the larger hash — every other tied parent has a hash at most the chosen
one's. -/
theorem C1_selected_parent_tiebreak (s : GhostdagState) (parents : List Nat)
    (sp : Nat) (d : BlockGHOSTDAGData)
    (heq : findSelectedParent s parents = some (sp, d)) :
    sp ∈ parents ∧ lookupData s sp = some d ∧
      ∀ p pd, p ∈ parents → lookupData s p = some pd →
        pd.blueWork < d.blueWork ∨ (pd.blueWork = d.blueWork ∧ p ≤ sp) := by
  cases parents with
  | nil => simp [findSelectedParent] at heq
  | cons q rest =>
    rcases hq : lookupData s q with _ | qd
    · simp only [findSelectedParent, hq] at heq
      exact Option.noConfusion heq
    · simp only [findSelectedParent, hq] at heq
      obtain ⟨hlk, hmem, hdom, hall⟩ :=
        findSelectedParentAux_spec s rest (q, qd) sp d (by simpa using hq) heq
      refine ⟨?_, hlk, ?_⟩
      · rcases hmem with hh | hh
        · injection hh with h1 h2
          simp [h1]
        · exact List.mem_cons_of_mem q hh
      · intro p pd hp hlp
        rcases List.mem_cons.mp hp with rfl | hp2
        · rw [hq] at hlp
          injection hlp with hpd
          subst hpd
          exact hdom
        · exact hall p pd hp2 hlp

/-- Counterexample to claim C1 as stated, on the src test's own tie scenario
(TestGHOSTDA test 3): block 5's parents 2, 3 and 4 are tied at the maximal blueWork,
the lowest tied hash is 2, yet the engine selects 4 — the tied parent with the
larger hash, not the lower one. -/
theorem C1_claim_counterexample :
    (lookupData tieBreakState 5).map (fun d => d.selectedParent) = some (some 4) ∧
    (lookupData tieBreakState 2).map (fun d => d.blueWork) = some 2 ∧
    (lookupData tieBreakState 3).map (fun d => d.blueWork) = some 2 ∧
    (lookupData tieBreakState 4).map (fun d => d.blueWork) = some 2 ∧
    (2 : Nat) < 4 ∧ some (some 4) ≠ some (some (2 : Nat)) := by decide

/-- Witness for the corrected C1 on the tie scenario: applying the theorem at the
concrete tied parents yields the stored data of the chosen parent 4. -/
theorem C1_witness :
    lookupData tieBreakState 4 =
      some { blueScore := 3, blueWork := 2, selectedParent := some 1
             mergeSetBlues := [1], mergeSetReds := [] } :=
  (C1_selected_parent_tiebreak tieBreakState [2, 3, 4] 4
    { blueScore := 3, blueWork := 2, selectedParent := some 1
      mergeSetBlues := [1], mergeSetReds := [] } (by decide)).2.1

/-- Counterexample to claim C2 as stated: the genesis GHOSTDAG data of this
repository does not have blue score 0. -/
theorem C2_claim_counterexample :
    ¬ (genesisGHOSTDAGData.blueScore = 0 ∧ genesisGHOSTDAGData.selectedParent = none) := by
  decide

/-- Claim C2 (corrected): the genesis block's GHOSTDAG data, as this repository's own
test seeds and relies on it, has blue score 1 — the blue-block count including
genesis itself — and no selected parent. -/
theorem C2_genesis_data :
    lookupData initialGhostdagState 0 = some genesisGHOSTDAGData ∧
    genesisGHOSTDAGData.blueScore = 1 ∧ genesisGHOSTDAGData.selectedParent = none := by
  decide

/-- Association lookup through a cons cell. -/
theorem lookupPairs_cons {α : Type} (a : Nat) (b : α) (l : List (Nat × α)) (x : Nat) :
    lookupPairs ((a, b) :: l) x = if a = x then some b else lookupPairs l x := by
  by_cases h : a = x <;> simp [lookupPairs, List.find?_cons, h]

/-- Data lookup in a state extended by one staged block. -/
theorem lookupData_insert (pm : List (Nat × List Nat)) (h : Nat) (nd : BlockGHOSTDAGData)
    (s : GhostdagState) (x : Nat) :
    lookupData ⟨pm, (h, nd) :: s.dataMap⟩ x = if h = x then some nd else lookupData s x := by
  simp [lookupData, lookupPairs_cons]

/-- The staged data's selected parent is the chosen parent. -/
theorem ghostdagNewData_selectedParent (k : Nat) (w : Nat → Nat) (s2 : GhostdagState)
    (sp : Nat) (spd : BlockGHOSTDAGData) (parents : List Nat) :
    (ghostdagNewData k w s2 sp spd parents).selectedParent = some sp := rfl

/-- The staged data's blue score is the selected parent's plus its blue merge set
size, by construction. -/
theorem ghostdagNewData_blueScore (k : Nat) (w : Nat → Nat) (s2 : GhostdagState)
    (sp : Nat) (spd : BlockGHOSTDAGData) (parents : List Nat) :
    (ghostdagNewData k w s2 sp spd parents).blueScore =
      spd.blueScore + (ghostdagNewData k w s2 sp spd parents).mergeSetBlues.length := rfl

/-- The selected parent returned by the fold carries its stored data. -/
theorem findSelectedParent_lookup (s : GhostdagState) (parents : List Nat) (sp : Nat)
    (d : BlockGHOSTDAGData) (heq : findSelectedParent s parents = some (sp, d)) :
    lookupData s sp = some d := by
  cases parents with
  | nil => simp [findSelectedParent] at heq
  | cons q rest =>
    rcases hq : lookupData s q with _ | qd
    · simp only [findSelectedParent, hq] at heq
      exact Option.noConfusion heq
    · simp only [findSelectedParent, hq] at heq
      exact (findSelectedParentAux_spec s rest (q, qd) sp d (by simpa using hq) heq).1

/-- Inserting a fresh block whose selected parent is stored and whose blue score
satisfies the recurrence preserves the invariant. -/
theorem ghostdagInvariant_insert (pm : List (Nat × List Nat)) (s : GhostdagState)
    (h : Nat) (nd : BlockGHOSTDAGData) (sp : Nat) (spd : BlockGHOSTDAGData)
    (hinv : ghostdagInvariant s)
    (hfresh : lookupData s h = none)
    (hnsp : nd.selectedParent = some sp)
    (hsp : lookupData s sp = some spd)
    (heq : nd.blueScore = spd.blueScore + nd.mergeSetBlues.length) :
    ghostdagInvariant ⟨pm, (h, nd) :: s.dataMap⟩ := by
  have hne : ¬ h = sp := by
    intro hcontra
    rw [← hcontra, hfresh] at hsp
    exact Option.noConfusion hsp
  constructor
  · intro x dx hx spx hspx
    rw [lookupData_insert] at hx
    rw [lookupData_insert]
    by_cases hxh : h = x
    · rw [if_pos hxh] at hx
      injection hx with hdx
      subst hdx
      rw [hnsp] at hspx
      injection hspx with hspx2
      subst hspx2
      rw [if_neg hne, hsp]
      rfl
    · rw [if_neg hxh] at hx
      have hold := hinv.1 x dx hx spx hspx
      by_cases hsx : h = spx
      · rw [if_pos hsx]
        rfl
      · rw [if_neg hsx]
        exact hold
  · intro x dx spx spdx hx hspx hlspx
    rw [lookupData_insert] at hx hlspx
    by_cases hxh : h = x
    · rw [if_pos hxh] at hx
      injection hx with hdx
      subst hdx
      rw [hnsp] at hspx
      injection hspx with hspx2
      subst hspx2
      rw [if_neg hne, hsp] at hlspx
      injection hlspx with hspd
      subst hspd
      exact heq
    · rw [if_neg hxh] at hx
      by_cases hsx : h = spx
      · exfalso
        have hold := hinv.1 x dx hx spx hspx
        rw [← hsx, hfresh] at hold
        simp at hold
      · rw [if_neg hsx] at hlspx
        exact hinv.2 x dx spx spdx hx hspx hlspx

/-- One GHOSTDAG computation preserves the invariant. -/
theorem ghostdagStep_invariant (k : Nat) (w : Nat → Nat) (s : GhostdagState)
    (h : Nat) (parents : List Nat) (hinv : ghostdagInvariant s) :
    ghostdagInvariant (ghostdagStep k w s h parents) := by
  unfold ghostdagStep
  split
  · exact hinv
  · rename_i hno
    rcases hfsp : findSelectedParent s parents with _ | spPair
    · simp only [hfsp]
      exact hinv
    · obtain ⟨sp, spData⟩ := spPair
      simp only [hfsp]
      have hfresh : lookupData s h = none := by
        rcases hl : lookupData s h with _ | dd
        · rfl
        · rw [hl] at hno
          simp at hno
      exact ghostdagInvariant_insert _ s h _ sp spData hinv hfresh
        (ghostdagNewData_selectedParent k w ⟨(h, parents) :: s.parentsMap, s.dataMap⟩ sp spData parents)
        (findSelectedParent_lookup s parents sp spData hfsp)
        (ghostdagNewData_blueScore k w ⟨(h, parents) :: s.parentsMap, s.dataMap⟩ sp spData parents)

/-- Genesis lookup in the initial state. -/
theorem lookupData_initial (h : Nat) :
    lookupData initialGhostdagState h =
      if 0 = h then some genesisGHOSTDAGData else none := by
  show lookupPairs [(0, genesisGHOSTDAGData)] h = _
  rw [lookupPairs_cons]
  rfl

/-- Every state the engine reaches from the seeded genesis satisfies the invariant. -/
theorem ghostdagRun_invariant (k : Nat) (w : Nat → Nat) (blocks : List (Nat × List Nat)) :
    ghostdagInvariant (ghostdagRun k w blocks) := by
  have hbase : ghostdagInvariant initialGhostdagState := by
    constructor
    · intro h d hl sp hsp
      rw [lookupData_initial] at hl
      by_cases h0 : 0 = h
      · rw [if_pos h0] at hl
        injection hl with hd
        subst hd
        exact Option.noConfusion hsp
      · rw [if_neg h0] at hl
        exact Option.noConfusion hl
    · intro h d sp spd hl hsp hlsp
      rw [lookupData_initial] at hl
      by_cases h0 : 0 = h
      · rw [if_pos h0] at hl
        injection hl with hd
        subst hd
        exact Option.noConfusion hsp
      · rw [if_neg h0] at hl
        exact Option.noConfusion hl
  suffices hgen : ∀ (bs : List (Nat × List Nat)) (st : GhostdagState), ghostdagInvariant st →
      ghostdagInvariant (bs.foldl (fun acc b => ghostdagStep k w acc b.1 b.2) st) by
    exact hgen blocks initialGhostdagState hbase
  intro bs
  induction bs with
  | nil => intro st hst; exact hst
  | cons b rest ih =>
    intro st hst
    exact ih (ghostdagStep k w st b.1 b.2) (ghostdagStep_invariant k w st b.1 b.2 hst)

/-- Claim C3 (confirmed): in every state the GHOSTDAG engine reaches, every stored
block with a selected parent has
blueScore = blueScore(selectedParent) + |mergeSetBlues| — the invariant is preserved
by every GHOSTDAG computation. -/
theorem C3_blueScore_invariant (k : Nat) (w : Nat → Nat) (blocks : List (Nat × List Nat))
    (h : Nat) (d : BlockGHOSTDAGData) (sp : Nat) (spd : BlockGHOSTDAGData)
    (h1 : lookupData (ghostdagRun k w blocks) h = some d)
    (h2 : d.selectedParent = some sp)
    (h3 : lookupData (ghostdagRun k w blocks) sp = some spd) :
    d.blueScore = spd.blueScore + d.mergeSetBlues.length :=
  (ghostdagRun_invariant k w blocks).2 h d sp spd h1 h2 h3

/-- Witness for C3 at the src test's k = 0 chain: block 3 has blue score 4, its
selected parent 2 has blue score 3, and the blue merge set is the single parent. -/
theorem C3_witness :
    ({ blueScore := 4, blueWork := 3, selectedParent := some 2
       mergeSetBlues := [2], mergeSetReds := [] } : BlockGHOSTDAGData).blueScore =
      ({ blueScore := 3, blueWork := 2, selectedParent := some 1
         mergeSetBlues := [1], mergeSetReds := [] } : BlockGHOSTDAGData).blueScore +
      ({ blueScore := 4, blueWork := 3, selectedParent := some 2
         mergeSetBlues := [2], mergeSetReds := [] } : BlockGHOSTDAGData).mergeSetBlues.length :=
  C3_blueScore_invariant 0 (fun _ => 1) chainBlocks 3
    { blueScore := 4, blueWork := 3, selectedParent := some 2
      mergeSetBlues := [2], mergeSetReds := [] } 2
    { blueScore := 3, blueWork := 2, selectedParent := some 1
      mergeSetBlues := [1], mergeSetReds := [] }
    (by decide) (by decide) (by decide)
